import Mathlib

/-!
Shallow embedding of the HelloPyGame interactive session
(`src/hello_pygame/my_game.py`) and the CLI entry point
(`src/hello_pygame/main.py`).

Timestamps (`time.time()` values) and the circle lifetime are modelled as
rational numbers; click coordinates as integers.  A click marker is the
tuple `(x, y, created_at)` exactly as stored in `MyGame.clicks`.
-/

namespace HelloPyGame

/-- A click marker `(x, y, timestamp)`, as stored in `MyGame.clicks`. -/
abbrev Marker := Int × Int × ℚ

/-- The mutable state of a `MyGame` instance, together with its
configuration fields (`width`, `height`, `circle_lifetime`). -/
structure GameState where
  width : Int
  height : Int
  circle_lifetime : ℚ
  clicks : List Marker
  click_count : Nat
  running : Bool
  deriving Repr, DecidableEq

/-- The state produced by `MyGame.__init__`: empty click list, zero click
count, running. -/
def initState (width height : Int) (circle_lifetime : ℚ) : GameState :=
  { width := width
    height := height
    circle_lifetime := circle_lifetime
    clicks := []
    click_count := 0
    running := true }

/-- The input events the run loop distinguishes: `pygame.QUIT`,
`pygame.MOUSEBUTTONDOWN` with a button number and position, and every
other event kind (ignored by the loop). -/
inductive Event where
  | quit : Event
  | mouseButtonDown (button : Nat) (pos : Int × Int) : Event
  | other : Event
  deriving Repr, DecidableEq

/-- Whether the event is a secondary-button (right-click) press, the
`event.button == 3` branch of the loop. -/
def Event.isReset : Event → Bool
  | .mouseButtonDown button _ => button == 3
  | _ => false

/-- Whether the event is a primary-button (left-click) press, the
`event.button == 1` branch of the loop. -/
def Event.isLeftClick : Event → Bool
  | .mouseButtonDown button _ => button == 1
  | _ => false

/-- The `event.pos` of a button press (`(0, 0)` for event kinds that
carry no position). -/
def Event.clickPos : Event → Int × Int
  | .mouseButtonDown _ p => p
  | _ => (0, 0)

/-- One step of the event-handling `for` loop in `MyGame.run`.  `now` is
the value `time.time()` returns when the event is processed (used only
for a left click). -/
def handleEvent (s : GameState) (e : Event) (now : ℚ) : GameState :=
  match e with
  | .quit => { s with running := false }
  | .mouseButtonDown button (x, y) =>
      if button = 1 then
        { s with clicks := s.clicks ++ [(x, y, now)],
                 click_count := s.click_count + 1 }
      else if button = 3 then
        { s with clicks := [], click_count := 0 }
      else s
  | .other => s

/-- Draining one batch of pending events (`pygame.event.get()`) in
arrival order; each event is paired with the `time.time()` value at the
moment it is processed. -/
def handleEvents (s : GameState) (evs : List (Event × ℚ)) : GameState :=
  evs.foldl (fun s p => handleEvent s p.1 p.2) s

/-- The method `MyGame._update_circles`: retain only the clicks whose age is
strictly below the lifetime, at `current_time = time.time()`. -/
def update_circles (s : GameState) (current_time : ℚ) : GameState :=
  { s with clicks :=
      s.clicks.filter (fun c => decide (current_time - c.2.2 < s.circle_lifetime)) }

/-- One iteration of the `while self.running` loop feeds the session one
frame: a batch of timed events followed by the `time.time()` value used
by `_update_circles`. -/
structure Frame where
  events : List (Event × ℚ)
  update_time : ℚ
  deriving Repr, DecidableEq

/-- The state change of one executed loop iteration: drain the event
batch, then expire the circles (`_draw` does not change the state). -/
def runFrame (s : GameState) (f : Frame) : GameState :=
  update_circles (handleEvents s f.events) f.update_time

/-- An observable action of the run loop: an event being handled, or a
frame being drawn by `_draw`. -/
inductive Action where
  | handled (e : Event) : Action
  | drew : Action
  deriving Repr, DecidableEq

/-- The `while self.running` loop of `MyGame.run` over a finite supply of
frames: each executed iteration handles its event batch, expires the
circles, and draws exactly once.  Returns the final state and the trace
of actions in execution order. -/
def runTrace : GameState → List Frame → GameState × List Action
  | s, [] => (s, [])
  | s, f :: fs =>
      if s.running then
        let s' := runFrame s f
        let rest := runTrace s' fs
        (rest.1, f.events.map (fun p => Action.handled p.1) ++ [Action.drew] ++ rest.2)
      else (s, [])

/-- Number of primary-button press events in a batch. -/
def countLeftClicks (evs : List (Event × ℚ)) : Nat :=
  (evs.filter (fun p => p.1.isLeftClick)).length

/-- The markers a batch appends: one `(x, y, now)` per primary-button
press, in arrival order. -/
def leftClickMarkers : List (Event × ℚ) → List Marker
  | [] => []
  | (Event.mouseButtonDown 1 (x, y), now) :: rest =>
      (x, y, now) :: leftClickMarkers rest
  | _ :: rest => leftClickMarkers rest

/-- A batch with no secondary-button press events. -/
def noRightClick (evs : List (Event × ℚ)) : Prop :=
  ∀ p ∈ evs, p.1.isReset = false

instance : DecidablePred noRightClick := fun evs =>
  inferInstanceAs (Decidable (∀ p ∈ evs, p.1.isReset = false))

/-- The outcome of running the Typer application `app()` (together with
`setup_logger()`) inside `main`: normal return, a
`UserNotificationException`, or any other exception. -/
inductive AppError where
  | userNotification (msg : String) : AppError
  | other (msg : String) : AppError
  deriving Repr, DecidableEq

/-- The function `main` in `src/hello_pygame/main.py`: returns exit code 0 when the
application body returns normally, catches `UserNotificationException`
and returns 1, and lets every other exception propagate. -/
def mainResult (outcome : Except AppError Unit) : Except AppError Int :=
  match outcome with
  | .ok _ => .ok 0
  | .error (.userNotification _) => .ok 1
  | .error e => .error e

/-- States reachable from some initial state by event-handling and
expiration steps. -/
inductive Reaches : GameState → Prop where
  | init (w h : Int) (lt : ℚ) : Reaches (initState w h lt)
  | event {s : GameState} (e : Event) (now : ℚ) :
      Reaches s → Reaches (handleEvent s e now)
  | expire {s : GameState} (now : ℚ) :
      Reaches s → Reaches (update_circles s now)

end HelloPyGame

namespace HelloPyGame

/-! ### Helper lemmas -/

theorem handleEvent_clicks_count (s : GameState) (e : Event) (now : ℚ) :
    (handleEvent s e now).click_count =
      (if e.isReset then 0
       else if e.isLeftClick then s.click_count + 1 else s.click_count) ∧
    (handleEvent s e now).clicks =
      (if e.isReset then []
       else if e.isLeftClick then
         s.clicks ++ [((e.clickPos).1, (e.clickPos).2, now)]
       else s.clicks) := by
  cases e with
  | quit => exact ⟨rfl, rfl⟩
  | other => exact ⟨rfl, rfl⟩
  | mouseButtonDown b p =>
      obtain ⟨x, y⟩ := p
      by_cases h1 : b = 1
      · subst h1
        exact ⟨rfl, rfl⟩
      · by_cases h3 : b = 3
        · subst h3
          exact ⟨rfl, rfl⟩
        · simp [handleEvent, Event.isReset, Event.isLeftClick, Event.clickPos, h1, h3]

theorem handleEvent_keeps_stopped (s : GameState) (e : Event) (now : ℚ)
    (h : s.running = false) : (handleEvent s e now).running = false := by
  cases e with
  | quit => rfl
  | other => exact h
  | mouseButtonDown b p =>
      obtain ⟨x, y⟩ := p
      simp only [handleEvent]
      split <;> [exact h; skip]
      split <;> exact h

theorem handleEvents_keep_stopped (s : GameState) (evs : List (Event × ℚ))
    (h : s.running = false) : (handleEvents s evs).running = false := by
  induction evs generalizing s with
  | nil => exact h
  | cons p rest ih =>
      exact ih _ (handleEvent_keeps_stopped s p.1 p.2 h)

theorem handleEvents_quit_stops (s : GameState) (evs : List (Event × ℚ))
    (h : Event.quit ∈ evs.map Prod.fst) :
    (handleEvents s evs).running = false := by
  induction evs generalizing s with
  | nil => simp at h
  | cons p rest ih =>
      rcases List.mem_cons.mp h with h1 | h2
      · have : handleEvents s (p :: rest) = handleEvents (handleEvent s p.1 p.2) rest := rfl
        rw [this]
        refine handleEvents_keep_stopped _ _ ?_
        rw [← h1]
        rfl
      · exact ih _ h2

theorem runTrace_stopped (s : GameState) (fs : List Frame)
    (h : s.running = false) : runTrace s fs = (s, []) := by
  cases fs with
  | nil => rfl
  | cons f fs => simp [runTrace, h]

/-! ### Claims -/

/-- C1 The expiration step keeps exactly the markers whose age is
strictly below the lifetime (so a marker whose age equals the lifetime
is removed), preserving relative order of the survivors: the resulting
list is a sublist of the old one, a marker is in it iff it was present
and satisfies `now - created_at < lifetime`, and multiplicities of
surviving markers are preserved. -/
theorem expire_retains_young_markers (s : GameState) (now : ℚ) :
    (update_circles s now).clicks.Sublist s.clicks ∧
    (∀ m : Marker, m ∈ (update_circles s now).clicks ↔
      m ∈ s.clicks ∧ now - m.2.2 < s.circle_lifetime) ∧
    (∀ m : Marker, (update_circles s now).clicks.count m =
      if now - m.2.2 < s.circle_lifetime then s.clicks.count m else 0) := by
  refine ⟨List.filter_sublist _, fun m => ?_, fun m => ?_⟩
  · simp [update_circles, List.mem_filter]
  · by_cases hm : now - m.2.2 < s.circle_lifetime
    · rw [if_pos hm]
      exact List.count_filter (by simpa using hm)
    · rw [if_neg hm]
      refine List.count_eq_zero.mpr ?_
      intro hmem
      exact hm (by simpa using (List.mem_filter.mp hmem).2)

/-- C3 A secondary-button (right-click) press at any position, from any
prior state, empties `markers` and resets `click_count` to 0. -/
theorem right_click_resets (s : GameState) (pos : Int × Int) (now : ℚ) :
    (handleEvent s (Event.mouseButtonDown 3 pos) now).clicks = [] ∧
    (handleEvent s (Event.mouseButtonDown 3 pos) now).click_count = 0 := by
  obtain ⟨x, y⟩ := pos
  exact ⟨rfl, rfl⟩

/-- C5 The expiration step is idempotent at a fixed current time:
applying it twice yields the same state as applying it once. -/
theorem expire_idempotent (s : GameState) (now : ℚ) :
    update_circles (update_circles s now) now = update_circles s now := by
  simp [update_circles, List.filter_filter]

/-- C8 The expiration step modifies only the `markers` list:
`click_count`, `running`, `width`, `height` and `circle_lifetime` are
unchanged. -/
theorem expire_frame_effect (s : GameState) (now : ℚ) :
    (update_circles s now).click_count = s.click_count ∧
    (update_circles s now).running = s.running ∧
    (update_circles s now).width = s.width ∧
    (update_circles s now).height = s.height ∧
    (update_circles s now).circle_lifetime = s.circle_lifetime :=
  ⟨rfl, rfl, rfl, rfl, rfl⟩

theorem handleEvents_no_right (s : GameState) (evs : List (Event × ℚ))
    (h : noRightClick evs) :
    (handleEvents s evs).click_count = s.click_count + countLeftClicks evs ∧
    (handleEvents s evs).clicks = s.clicks ++ leftClickMarkers evs := by
  induction evs generalizing s with
  | nil => simp [handleEvents, countLeftClicks, leftClickMarkers]
  | cons p rest ih =>
      obtain ⟨e, t⟩ := p
      have hrest : noRightClick rest := fun q hq => h q (List.mem_cons_of_mem _ hq)
      have he : e.isReset = false := h (e, t) (List.mem_cons_self _ _)
      have hstep : handleEvents s ((e, t) :: rest) =
          handleEvents (handleEvent s e t) rest := rfl
      rw [hstep]
      obtain ⟨ihc, ihm⟩ := ih (handleEvent s e t) hrest
      obtain ⟨hc, hm⟩ := handleEvent_clicks_count s e t
      rw [he] at hc hm
      simp only [if_false, Bool.false_eq_true] at hc hm
      cases e with
      | quit =>
          refine ⟨?_, ?_⟩
          · show (handleEvents (handleEvent s Event.quit t) rest).click_count = _
            rw [ihc]
            rfl
          · show (handleEvents (handleEvent s Event.quit t) rest).clicks = _
            rw [ihm]
            rfl
      | other =>
          refine ⟨?_, ?_⟩
          · show (handleEvents (handleEvent s Event.other t) rest).click_count = _
            rw [ihc]
            rfl
          · show (handleEvents (handleEvent s Event.other t) rest).clicks = _
            rw [ihm]
            rfl
      | mouseButtonDown b pos =>
          obtain ⟨x, y⟩ := pos
          by_cases h1 : b = 1
          · subst h1
            simp only [Event.isLeftClick, beq_self_eq_true, if_true] at hc hm
            refine ⟨?_, ?_⟩
            · rw [ihc, hc]
              simp [countLeftClicks, Event.isLeftClick]
              omega
            · rw [ihm, hm]
              simp [leftClickMarkers, Event.clickPos]
          · have hne : (Event.mouseButtonDown b (x, y)).isLeftClick = false := by
              simp [Event.isLeftClick, h1]
            rw [hne] at hc hm
            simp only [if_false, Bool.false_eq_true] at hc hm
            have h3 : b ≠ 3 := by
              intro hb
              subst hb
              simp [Event.isReset] at he
            refine ⟨?_, ?_⟩
            · rw [ihc, hc]
              simp [countLeftClicks, Event.isLeftClick, h1]
            · rw [ihm, hm]
              have : leftClickMarkers ((Event.mouseButtonDown b (x, y), t) :: rest) =
                  leftClickMarkers rest := by
                cases b with
                | zero => rfl
                | succ n =>
                    cases n with
                    | zero => exact absurd rfl h1
                    | succ k => rfl
              rw [this]

/-- C2 Processing any batch with N primary-button presses and no
secondary-button presses from the initial state leaves `click_count`
equal to N, and the markers are exactly the `(x, y, now)` of the
left clicks, appended in arrival order. -/
theorem left_clicks_count_and_append (w h : Int) (lt : ℚ)
    (evs : List (Event × ℚ)) (hnr : noRightClick evs) :
    (handleEvents (initState w h lt) evs).click_count = countLeftClicks evs ∧
    (handleEvents (initState w h lt) evs).clicks = leftClickMarkers evs := by
  obtain ⟨hc, hm⟩ := handleEvents_no_right (initState w h lt) evs hnr
  refine ⟨?_, ?_⟩
  · rw [hc]
    simp [initState]
  · rw [hm]
    rfl

/-- Witness for C2: two left clicks interleaved with an ignored event
and a quit, no right click. -/
theorem left_clicks_count_and_append_witness :
    noRightClick
      [(Event.mouseButtonDown 1 (10, 10), 0), (Event.other, 1),
       (Event.quit, 2), (Event.mouseButtonDown 1 (20, 20), 3)] ∧
    ((handleEvents (initState 800 600 3)
        [(Event.mouseButtonDown 1 (10, 10), 0), (Event.other, 1),
         (Event.quit, 2), (Event.mouseButtonDown 1 (20, 20), 3)]).click_count =
      countLeftClicks
        [(Event.mouseButtonDown 1 (10, 10), 0), (Event.other, 1),
         (Event.quit, 2), (Event.mouseButtonDown 1 (20, 20), 3)] ∧
     (handleEvents (initState 800 600 3)
        [(Event.mouseButtonDown 1 (10, 10), 0), (Event.other, 1),
         (Event.quit, 2), (Event.mouseButtonDown 1 (20, 20), 3)]).clicks =
      leftClickMarkers
        [(Event.mouseButtonDown 1 (10, 10), 0), (Event.other, 1),
         (Event.quit, 2), (Event.mouseButtonDown 1 (20, 20), 3)]) :=
  ⟨by decide, left_clicks_count_and_append 800 600 3 _ (by decide)⟩

/-- C6 Per step, `click_count` only changes as the loop prescribes: a
secondary-button press sets it to exactly 0, a primary-button press
increments it, every other event leaves it unchanged, and the
expiration step leaves it unchanged — so it never decreases except on
reset. -/
theorem click_count_monotone_except_reset (s : GameState) (e : Event) (now : ℚ) :
    (handleEvent s e now).click_count =
      (if e.isReset then 0
       else if e.isLeftClick then s.click_count + 1 else s.click_count) ∧
    (update_circles s now).click_count = s.click_count :=
  ⟨(handleEvent_clicks_count s e now).1, rfl⟩

/-- C7 The CLI entry point returns exit code 0 on normal termination,
returns exit code 1 exactly when a `UserNotificationException` is
raised, and lets every other exception propagate unhandled. -/
theorem main_exit_codes :
    mainResult (Except.ok ()) = Except.ok 0 ∧
    (∀ msg : String,
      mainResult (Except.error (AppError.userNotification msg)) = Except.ok 1) ∧
    (∀ msg : String,
      mainResult (Except.error (AppError.other msg)) =
        Except.error (AppError.other msg)) :=
  ⟨rfl, fun _ => rfl, fun _ => rfl⟩

/-- C9 In every state reachable from the initial state by
event-handling and expiration steps, the number of markers is at most
`click_count`. -/
theorem markers_le_click_count (s : GameState) (h : Reaches s) :
    s.clicks.length ≤ s.click_count := by
  induction h with
  | init w h lt => exact Nat.le_refl 0
  | event e now hs ih =>
      rename_i s1
      obtain ⟨hc, hm⟩ := handleEvent_clicks_count s1 e now
      rw [hc, hm]
      cases hr : e.isReset with
      | true => simp
      | false =>
          cases hl : e.isLeftClick with
          | true => simpa using ih
          | false => simpa using ih
  | expire now hs ih =>
      rename_i s1
      calc (update_circles s1 now).clicks.length
          ≤ s1.clicks.length := List.Sublist.length_le (List.filter_sublist _)
        _ ≤ s1.click_count := ih

/-- Witness for C9: the state after one left click on the initial
state is reachable and satisfies the bound. -/
theorem markers_le_click_count_witness :
    Reaches (handleEvent (initState 800 600 3)
      (Event.mouseButtonDown 1 (10, 10)) 0) ∧
    (handleEvent (initState 800 600 3)
      (Event.mouseButtonDown 1 (10, 10)) 0).clicks.length ≤
    (handleEvent (initState 800 600 3)
      (Event.mouseButtonDown 1 (10, 10)) 0).click_count :=
  ⟨Reaches.event _ _ (Reaches.init 800 600 3),
   markers_le_click_count _ (Reaches.event _ _ (Reaches.init 800 600 3))⟩

/-- C10 A quit event does not stop the draining of the current batch:
the rest of the batch is processed from the stopped state, and in
particular a left click following a quit in the same batch still
appends its marker and increments `click_count`. -/
theorem batch_continues_after_quit (s : GameState) (t1 t2 : ℚ) (x y : Int)
    (evs : List (Event × ℚ)) :
    handleEvents s ((Event.quit, t1) :: evs) =
      handleEvents { s with running := false } evs ∧
    (handleEvents s [(Event.quit, t1),
        (Event.mouseButtonDown 1 (x, y), t2)]).clicks =
      s.clicks ++ [(x, y, t2)] ∧
    (handleEvents s [(Event.quit, t1),
        (Event.mouseButtonDown 1 (x, y), t2)]).click_count =
      s.click_count + 1 :=
  ⟨rfl, rfl, rfl⟩

/-- C4 counterexample: starting the loop with a single frame whose
batch is one quit event, the trace handles the quit and then still
performs one draw — a render occurs after the quit event is processed,
refuting that no further draws occur. -/
theorem quit_iteration_still_draws :
    (runTrace (initState 800 600 3) [⟨[(Event.quit, 0)], 0⟩]).2 =
      [Action.handled Event.quit, Action.drew] ∧
    (runTrace (initState 800 600 3) [⟨[(Event.quit, 0)], 0⟩]).1.running = false := by
  exact ⟨by decide, by decide⟩

/-- C4 amended: once a frame whose batch contains a quit event is
processed, `running` is false, the iteration containing the quit still
performs its single draw, and no actions (in particular no draws) occur
in any later iteration: the loop exits. -/
theorem quit_stops_loop_after_final_draw (s : GameState) (f : Frame)
    (fs : List Frame) (hrun : s.running = true)
    (hq : Event.quit ∈ f.events.map Prod.fst) :
    (runFrame s f).running = false ∧
    runTrace s (f :: fs) =
      (runFrame s f, f.events.map (fun p => Action.handled p.1) ++ [Action.drew]) := by
  have hstop : (runFrame s f).running = false := by
    have : (handleEvents s f.events).running = false :=
      handleEvents_quit_stops s f.events hq
    simpa [runFrame, update_circles] using this
  refine ⟨hstop, ?_⟩
  simp [runTrace, hrun, runTrace_stopped _ fs hstop]

/-- Witness for C4 amended: initial state, one frame holding one quit
event, no later frames. -/
theorem quit_stops_loop_after_final_draw_witness :
    ((initState 800 600 3).running = true ∧
     Event.quit ∈ ([((Event.quit : Event), (0 : ℚ))].map Prod.fst)) ∧
    ((runFrame (initState 800 600 3) ⟨[(Event.quit, 0)], 0⟩).running = false ∧
     runTrace (initState 800 600 3) [⟨[(Event.quit, 0)], 0⟩] =
       (runFrame (initState 800 600 3) ⟨[(Event.quit, 0)], 0⟩,
        ([((Event.quit : Event), (0 : ℚ))].map
          (fun p => Action.handled p.1)) ++ [Action.drew])) :=
  ⟨⟨rfl, by decide⟩,
   quit_stops_loop_after_final_draw (initState 800 600 3)
     ⟨[(Event.quit, 0)], 0⟩ [] rfl (by decide)⟩

end HelloPyGame
